import Mathlib

/-!
Shallow embedding of the pattern utilities and pattern storage of the
`oelo_lights` Home Assistant integration
(`custom_components/oelo_lights/pattern_utils.py` and
`custom_components/oelo_lights/pattern_storage.py`), together with proofs
about them.

Python strings are modelled as Lean `String` (a list of characters);
the Python built-ins used by the source are modelled explicitly:

* `str.split(",")`   → `pySplitOn` (single-character separator);
* `str.strip()`      → `pyStrip` (strips ASCII whitespace at both ends);
* `int(s)`           → `pyParseInt` (strip, optional sign, decimal digits;
  returns `none` where the Python call raises `ValueError`);
* `str(i)`           → `pyStr` (decimal representation);
* `sep.join(parts)`  → `pyJoin`;
* `sorted(set(xs))`  → `pySortedSet`;
* `dict` values      → association lists in insertion order: `dictLookup`,
  `dictGet` (lookup with default, i.e. `dict.get(k, d)`), and `dictSet`
  (`d[k] = v`: replaces the value in place, or appends a new key).
-/

namespace Oelo

/-- ASCII whitespace characters stripped by Python `str.strip()`. -/
def isPySpace (c : Char) : Bool :=
  c = ' ' ∨ c = '\t' ∨ c = '\n' ∨ c = '\x0d' ∨ c = '\x0b' ∨ c = '\x0c'

/-- Model of Python `str.strip()` on a character list. -/
def pyStripL (l : List Char) : List Char :=
  ((l.dropWhile isPySpace).reverse.dropWhile isPySpace).reverse

/-- Model of Python `s.split(c)` for a one-character separator `c`:
`""` splits to `[""]`, and empty fields are kept. -/
def splitCharL (c : Char) : List Char → List (List Char)
  | [] => [[]]
  | x :: xs =>
    match splitCharL c xs with
    | [] => [[]]
    | t :: ts => if x = c then [] :: t :: ts else (x :: t) :: ts

/-- Model of Python `sep.join(parts)` for a one-character separator. -/
def joinSepL (c : Char) : List (List Char) → List Char
  | [] => []
  | [t] => t
  | t :: u :: ts => t ++ c :: joinSepL c (u :: ts)

/-- Numeric value of a decimal digit character. -/
def digitVal (c : Char) : Nat := c.toNat - 48

/-- Value of a non-empty all-digit character list, `none` otherwise. -/
def digitsValL (l : List Char) : Option Nat :=
  if l ≠ [] ∧ l.all Char.isDigit then
    some (l.foldl (fun a c => 10 * a + digitVal c) 0)
  else none

/-- Model of Python `int(s)` on a character list: strip whitespace, accept an
optional single sign followed by decimal digits; `none` models `ValueError`.
(Python additionally accepts underscore digit separators and non-ASCII
digits; the repository only ever feeds ASCII CSV tokens to `int`.) -/
def pyParseIntL (l : List Char) : Option Int :=
  if (pyStripL l).head? = some '-' then
    (digitsValL (pyStripL l).tail).map (fun n => -(n : Int))
  else if (pyStripL l).head? = some '+' then
    (digitsValL (pyStripL l).tail).map (fun n => (n : Int))
  else (digitsValL (pyStripL l)).map (fun n => (n : Int))

/-- Decimal digit character for `d < 10`. -/
def digitCharOf (d : Nat) : Char := Char.ofNat (48 + d)

/-- Digit accumulator for `natToCharsL` (`fuel` only bounds the recursion
depth; `n + 1` steps always suffice for the number `n`). -/
def natToCharsAux : Nat → Nat → List Char → List Char
  | 0, _, acc => acc
  | fuel + 1, n, acc =>
    if n < 10 then digitCharOf n :: acc
    else natToCharsAux fuel (n / 10) (digitCharOf (n % 10) :: acc)

/-- Decimal representation of a natural number (model of Python `str`). -/
def natToCharsL (n : Nat) : List Char := natToCharsAux (n + 1) n []

/-- Decimal representation of an integer (model of Python `str(int)`). -/
def intToCharsL (i : Int) : List Char :=
  if i < 0 then '-' :: natToCharsL (-i).toNat else natToCharsL i.toNat

/-- String wrapper for `pyStripL`. -/
def pyStrip (s : String) : String := ⟨pyStripL s.data⟩

/-- String wrapper for `splitCharL`. -/
def pySplitOn (s : String) (c : Char) : List String :=
  (splitCharL c s.data).map (fun t => ⟨t⟩)

/-- String wrapper for `joinSepL`. -/
def pyJoin (c : Char) (ts : List String) : String :=
  ⟨joinSepL c (ts.map String.data)⟩

/-- String wrapper for `pyParseIntL`. -/
def pyParseInt (s : String) : Option Int := pyParseIntL s.data

/-- String wrapper for `intToCharsL`. -/
def pyStr (i : Int) : String := ⟨intToCharsL i⟩

/-- Model of Python `sorted(set(xs))`: the distinct elements in
ascending order. -/
def pySortedSet (l : List Int) : List Int :=
  l.dedup.insertionSort (· ≤ ·)

/-- First-match association-list lookup (Python `dict` access). -/
def dictLookup : List (String × String) → String → Option String
  | [], _ => none
  | (k₁, v) :: rest, k => if k₁ = k then some v else dictLookup rest k

/-- Model of Python `dict.get(k, dflt)`. -/
def dictGet (d : List (String × String)) (k dflt : String) : String :=
  (dictLookup d k).getD dflt

/-- Model of Python `d[k] = v`: replace the first binding of `k` in place,
or append a new binding (insertion order is preserved, as for `dict`). -/
def dictSet : List (String × String) → String → String → List (String × String)
  | [], k, v => [(k, v)]
  | (k₁, v₁) :: rest, k, v =>
    if k₁ = k then (k, v) :: rest else (k₁, v₁) :: dictSet rest k v

/-! ### Embedding of `pattern_utils.py` -/

/-- First parseable non-zero RGB triplet scan of `generate_pattern_id`
(`pattern_utils.py`, lines 66-79): the CSV fields are visited in steps of
three (`for i in range(0, len(color_parts) - 2, 3)`); a field triple where
some `int(...)` raises is skipped (`except ... continue`), a parsed all-zero
triple is skipped, and the first parsed non-zero triple yields the
`_rgb{r}-{g}-{b}` suffix. -/
def firstNonzeroRgb : List String → String
  | p₀ :: p₁ :: p₂ :: rest =>
    match pyParseInt (pyStrip p₀), pyParseInt (pyStrip p₁), pyParseInt (pyStrip p₂) with
    | some r, some g, some b =>
      if r ≠ 0 ∨ g ≠ 0 ∨ b ≠ 0 then
        "_rgb" ++ pyStr r ++ "-" ++ pyStr g ++ "-" ++ pyStr b
      else firstNonzeroRgb rest
    | _, _, _ => firstNonzeroRgb rest
  | _ => ""

/-- Model of `generate_pattern_id(url_params, plan_type)`
(`pattern_utils.py`, lines 20-88).  `url_params` is the URL-parameter
dictionary as an insertion-ordered association list. -/
def generate_pattern_id (url_params : List (String × String))
    (plan_type : String) : String :=
  let pattern_type := dictGet url_params "patternType" "unknown"
  let direction := dictGet url_params "direction" "F"
  let speed := dictGet url_params "speed" "0"
  let num_colors := dictGet url_params "num_colors" "1"
  let dir_parts : List String :=
    if direction ≠ "" ∧ direction ≠ "0" ∧ direction ≠ "F" then ["dir" ++ direction]
    else []
  let spd_parts : List String :=
    if speed ≠ "" ∧ speed ≠ "0" then
      match pyParseInt speed with
      | some speed_int => if speed_int ≠ 0 then ["spd" ++ pyStr speed_int] else []
      | none => []
    else []
  let colors_parts : List String :=
    if plan_type ≠ "spotlight" ∧ num_colors ≠ "" then
      match pyParseInt num_colors with
      | some num_colors_int =>
          if num_colors_int > 1 then [pyStr num_colors_int ++ "colors"] else []
      | none => []
    else []
  let suffix_parts := dir_parts ++ spd_parts ++ colors_parts
  let colors_str := dictGet url_params "colors" ""
  let rgb_part := if colors_str ≠ "" then firstNonzeroRgb (pySplitOn colors_str ',') else ""
  let suffix := if suffix_parts ≠ [] then "_" ++ pyJoin '_' suffix_parts else ""
  pattern_type ++ suffix ++ rgb_part

/-- The index-parsing loop of `normalize_led_indices` (`pattern_utils.py`,
lines 96-104).  The whole loop sits inside one `try`, so a token on which
`int` raises aborts the entire function (modelled by `none`); empty tokens
are skipped, and parsed tokens are kept only when `1 <= idx <= max_leds`. -/
def parseIndicesStrict : List String → Int → Option (List Int)
  | [], _ => some []
  | p :: ps, max_leds =>
    let part := pyStrip p
    if part = "" then parseIndicesStrict ps max_leds
    else
      match pyParseInt part with
      | none => none
      | some idx =>
        (parseIndicesStrict ps max_leds).map
          (fun rest => if 1 ≤ idx ∧ idx ≤ max_leds then idx :: rest else rest)

/-- Model of `normalize_led_indices(led_indices_str, max_leds)`
(`pattern_utils.py`, lines 91-112). -/
def normalize_led_indices (led_indices_str : String) (max_leds : Int) : String :=
  if led_indices_str = "" ∨ pyStrip led_indices_str = "" then ""
  else
    match parseIndicesStrict (pySplitOn led_indices_str ',') max_leds with
    | none => ""
    | some indices => pyJoin ',' ((pySortedSet indices).map pyStr)

/-- The color-parsing loop of `modify_spotlight_plan_colors`
(`pattern_utils.py`, lines 144-154): fields are visited in steps of three,
only complete triples (`i + 2 < len(color_parts)`) are considered, each
component is clamped by `max(0, min(255, int(...)))`, and a triple where
some `int(...)` raises is skipped. -/
def parseTripletsClamped : List String → List (Int × Int × Int)
  | p₀ :: p₁ :: p₂ :: rest =>
    (match pyParseInt (pyStrip p₀), pyParseInt (pyStrip p₁), pyParseInt (pyStrip p₂) with
     | some r, some g, some b =>
        [(max 0 (min 255 r), max 0 (min 255 g), max 0 (min 255 b))]
     | _, _, _ => []) ++ parseTripletsClamped rest
  | _ => []

/-- The LED-index parsing loop of `modify_spotlight_plan_colors`
(`pattern_utils.py`, lines 164-173).  Unlike `normalize_led_indices`, the
`try` here is per token, so a token on which `int` raises is merely
skipped. -/
def parseIndicesLoose : List String → Int → List Int
  | [], _ => []
  | p :: ps, max_leds =>
    let part := pyStrip p
    if part = "" then parseIndicesLoose ps max_leds
    else
      match pyParseInt part with
      | some idx =>
        if 1 ≤ idx ∧ idx ≤ max_leds then idx :: parseIndicesLoose ps max_leds
        else parseIndicesLoose ps max_leds
      | none => parseIndicesLoose ps max_leds

/-- Model of `modify_spotlight_plan_colors(original_colors, led_indices_str,
num_colors, max_leds)` (`pattern_utils.py`, lines 115-189).  As in the
source, the `num_colors` argument is accepted but never used, and when no
valid color triplet or no valid LED index is found the function returns
`original_colors` unchanged (after logging a warning). -/
def modify_spotlight_plan_colors (original_colors led_indices_str : String)
    (num_colors max_leds : Int) : String :=
  match parseTripletsClamped (pySplitOn original_colors ',') with
  | [] => original_colors
  | base_color :: _ =>
    match parseIndicesLoose (pySplitOn led_indices_str ',') max_leds with
    | [] => original_colors
    | led_indices =>
      let modified_colors := (List.range max_leds.toNat).flatMap (fun (k : Nat) =>
        if ((k : Int) + 1) ∈ led_indices then
          [base_color.1, base_color.2.1, base_color.2.2]
        else [0, 0, 0])
      pyJoin ',' (modified_colors.map pyStr)

/-- A stored pattern record (`pattern_storage.py` docstring: `id`, `name`,
`url_params`, `plan_type`, `original_colors`).  A missing or `None` Python
value for `id`, `name` or `original_colors` is modelled by `""` (both are
falsy in the source's truthiness tests). -/
structure StoredPattern where
  id : String
  name : String
  url_params : List (String × String)
  plan_type : String
  original_colors : String
deriving DecidableEq, Inhabited, Repr

/-- Relation between two stored records that agree on every field except
possibly `name` (`async_add_pattern` on a duplicate id updates at most the
stored name). -/
def sameExceptName (r q : StoredPattern) : Prop :=
  r.id = q.id ∧ r.url_params = q.url_params ∧ r.plan_type = q.plan_type ∧
    r.original_colors = q.original_colors

/-- UTF-8 bytes of a character, as natural numbers below 256. -/
def utf8Bytes (c : Char) : List Nat :=
  let n := c.toNat
  if n < 0x80 then [n]
  else if n < 0x800 then [0xC0 + n / 0x40, 0x80 + n % 0x40]
  else if n < 0x10000 then
    [0xE0 + n / 0x1000, 0x80 + (n / 0x40) % 0x40, 0x80 + n % 0x40]
  else
    [0xF0 + n / 0x40000, 0x80 + (n / 0x1000) % 0x40, 0x80 + (n / 0x40) % 0x40,
     0x80 + n % 0x40]

/-- Uppercase hexadecimal digit. -/
def hexDigitOf (d : Nat) : Char :=
  if d < 10 then Char.ofNat (48 + d) else Char.ofNat (55 + d)

/-- Model of `urllib.parse.quote_plus`: ASCII letters, digits and
`_ . - ~` pass through, space becomes `+`, everything else is
percent-encoded byte-wise. -/
def quote_plus (s : String) : String :=
  ⟨s.data.flatMap (fun c =>
    if c = ' ' then ['+']
    else if c.isAlphanum ∨ c = '_' ∨ c = '.' ∨ c = '-' ∨ c = '~' then [c]
    else (utf8Bytes c).flatMap (fun b => ['%', hexDigitOf (b / 16), hexDigitOf (b % 16)]))⟩

/-- Model of `urllib.parse.urlencode` on string-valued parameters. -/
def urlencode (ps : List (String × String)) : String :=
  pyJoin '&' (ps.map (fun kv => quote_plus kv.1 ++ "=" ++ quote_plus kv.2))

/-- The URL-parameter dictionary built by `build_pattern_url`
(`pattern_utils.py`, lines 215-231): a copy of the stored `url_params` with
`zones` and `num_zones` overwritten, and, for spotlight plans with a
non-empty `spotlight_plan_lights` setting, `colors` replaced by the
reconstructed array.  `none` models the uncaught `ValueError` of
`int(url_params.get("num_colors", "1"))`. -/
def build_pattern_url_params (pattern : StoredPattern) (zone : Int)
    (spotlight_plan_lights : Option String) (max_leds : Int) :
    Option (List (String × String)) :=
  let url_params := dictSet (dictSet pattern.url_params "zones" (pyStr zone)) "num_zones" "1"
  if pattern.plan_type = "spotlight" ∧ spotlight_plan_lights.getD "" ≠ "" then
    match pyParseInt (dictGet url_params "num_colors" "1") with
    | none => none
    | some num_colors =>
      let modified_colors := modify_spotlight_plan_colors pattern.original_colors
        (spotlight_plan_lights.getD "") num_colors max_leds
      some (dictSet url_params "colors" modified_colors)
  else some url_params

/-- Model of `build_pattern_url(pattern, zone, ip_address,
spotlight_plan_lights, max_leds)` (`pattern_utils.py`, lines 192-235).
The input `pattern` is read only (`url_params` is `.copy()`-ed in the
source before any assignment), which the purely functional model reflects
by construction. -/
def build_pattern_url (pattern : StoredPattern) (zone : Int) (ip_address : String)
    (spotlight_plan_lights : Option String) (max_leds : Int) : Option String :=
  (build_pattern_url_params pattern zone spotlight_plan_lights max_leds).map
    (fun ps => "http://" ++ ip_address ++ "/setPattern?" ++ urlencode ps)

/-! ### Embedding of `pattern_storage.py` -/

/-- Constant `MAX_PATTERNS` from `const.py`, line 45. -/
def MAX_PATTERNS : Nat := 200

/-- The duplicate-id scan of `PatternStorage.async_add_pattern`
(`pattern_storage.py`, lines 62-72): `some` when an existing record with
the same `id` is found; in that case the stored name is updated exactly
when the incoming name is truthy and different. -/
def addPatternLoop (p : StoredPattern) : List StoredPattern →
    Option (Bool × List StoredPattern)
  | [] => none
  | existing :: rest =>
    if existing.id = p.id then
      some (if p.name ≠ "" ∧ p.name ≠ existing.name then
              (true, { existing with name := p.name } :: rest)
            else (false, existing :: rest))
    else (addPatternLoop p rest).map (fun r => (r.1, existing :: r.2))

/-- Model of `PatternStorage.async_add_pattern` (`pattern_storage.py`,
lines 56-82) acting on the in-memory pattern list; the returned pair is
(return value, stored list after the call). -/
def async_add_pattern (patterns : List StoredPattern) (p : StoredPattern) :
    Bool × List StoredPattern :=
  match (if p.id ≠ "" then addPatternLoop p patterns else none) with
  | some r => r
  | none =>
    if patterns.length ≥ MAX_PATTERNS then (false, patterns)
    else (true, patterns ++ [p])

/-- Position of the record `PatternStorage.async_get_pattern` resolves
(`pattern_storage.py`, lines 84-98): first match by `id` when `pattern_id`
is truthy, otherwise (also when the id search misses) first match by
`name` when `pattern_name` is truthy. -/
def async_get_pattern_idx (patterns : List StoredPattern)
    (pattern_id pattern_name : String) : Option Nat :=
  match (if pattern_id ≠ "" then patterns.findIdx? (fun r => r.id = pattern_id) else none) with
  | some j => some j
  | none =>
    if pattern_name ≠ "" then patterns.findIdx? (fun r => r.name = pattern_name) else none

/-- Model of `PatternStorage.async_rename_pattern` (`pattern_storage.py`,
lines 100-115).  The conflict test `existing != pattern` is Python
structural dictionary inequality, modelled by (decidable) record
inequality; the resolved record itself is mutated in place, modelled by
`List.set` at its position. -/
def async_rename_pattern (patterns : List StoredPattern)
    (pattern_id pattern_name new_name : String) : Bool × List StoredPattern :=
  match async_get_pattern_idx patterns pattern_id pattern_name with
  | none => (false, patterns)
  | some j =>
    match patterns[j]? with
    | none => (false, patterns)
    | some pattern =>
      if patterns.any (fun existing =>
          decide (existing ≠ pattern) && decide (existing.name = new_name)) then
        (false, patterns)
      else (true, patterns.set j { pattern with name := new_name })

/-! ### Specification-side definitions

These definitions follow the wording of the specification (they are *not*
translated from the source); the refinement theorems below compare them
with the source-translated definitions above. -/

/-- Concatenation of a list of strings. -/
def concatAll : List String → String
  | [] => ""
  | s :: rest => s ++ concatAll rest

/-- The parseable RGB triplets of a CSV field list, visited in steps of
three, without clamping (spec reading of the pattern-id RGB scan). -/
def parseTriplets : List String → List (Int × Int × Int)
  | p₀ :: p₁ :: p₂ :: rest =>
    (match pyParseInt (pyStrip p₀), pyParseInt (pyStrip p₁), pyParseInt (pyStrip p₂) with
     | some r, some g, some b => [(r, g, b)]
     | _, _, _ => []) ++ parseTriplets rest
  | _ => []

/-- Spec reading of the pattern-id direction suffix: `_dir{direction}` only
if `direction` is present and differs from `"0"` and `"F"`. -/
def pattern_id_direction_part (url_params : List (String × String)) : String :=
  let direction := dictGet url_params "direction" "F"
  if direction ≠ "" ∧ direction ≠ "0" ∧ direction ≠ "F" then "_dir" ++ direction else ""

/-- Spec reading of the pattern-id speed suffix: `_spd{n}` only if `speed`
parses to a non-zero integer `n`. -/
def pattern_id_speed_part (url_params : List (String × String)) : String :=
  match pyParseInt (dictGet url_params "speed" "0") with
  | some n => if n ≠ 0 then "_spd" ++ pyStr n else ""
  | none => ""

/-- Spec reading of the pattern-id color-count suffix: for non-spotlight
plan types only, `_{n}colors` if `num_colors` parses to an integer
greater than 1. -/
def pattern_id_colors_part (url_params : List (String × String))
    (plan_type : String) : String :=
  if plan_type = "spotlight" then ""
  else
    match pyParseInt (dictGet url_params "num_colors" "1") with
    | some n => if n > 1 then "_" ++ pyStr n ++ "colors" else ""
    | none => ""

/-- Spec reading of the pattern-id RGB suffix: `_rgb{r}-{g}-{b}` for the
first parseable triplet of the colors CSV that is not `(0,0,0)`; omitted
when no such triplet exists (empty, malformed or all-zero colors). -/
def pattern_id_rgb_part (url_params : List (String × String)) : String :=
  match (parseTriplets (pySplitOn (dictGet url_params "colors" "") ',')).find?
      (fun t => decide (t ≠ (0, 0, 0))) with
  | some t => "_rgb" ++ pyStr t.1 ++ "-" ++ pyStr t.2.1 ++ "-" ++ pyStr t.2.2
  | none => ""

/-- Spec reading of the whole pattern id: the `patternType` value followed
by the four optional suffixes in order. -/
def generate_pattern_id_spec (url_params : List (String × String))
    (plan_type : String) : String :=
  dictGet url_params "patternType" "unknown"
    ++ pattern_id_direction_part url_params
    ++ pattern_id_speed_part url_params
    ++ pattern_id_colors_part url_params plan_type
    ++ pattern_id_rgb_part url_params

/-- The base color of spotlight reconstruction: the first parsed (clamped)
triplet of the stored colors. -/
def firstBaseColor (original_colors : String) : Int × Int × Int :=
  (parseTripletsClamped (pySplitOn original_colors ',')).headI

/-- The in-range LED indices parsed from a spotlight-plan lights string. -/
def litIndices (led_indices_str : String) (max_leds : Int) : List Int :=
  parseIndicesLoose (pySplitOn led_indices_str ',') max_leds

/-- Spec reading of the reconstructed spotlight LED array: one triplet per
LED index `1 .. max_leds`; the base color at lit indices, `(0,0,0)`
elsewhere. -/
def spotlightTriplets (original_colors led_indices_str : String)
    (max_leds : Int) : List (Int × Int × Int) :=
  (List.range max_leds.toNat).map (fun (k : Nat) =>
    if ((k : Int) + 1) ∈ litIndices led_indices_str max_leds then
      firstBaseColor original_colors
    else (0, 0, 0))

/-! ### Basic lemmas about the string model -/

theorem splitCharL_ne_nil (c : Char) (l : List Char) : splitCharL c l ≠ [] := by
  cases l with
  | nil => simp [splitCharL]
  | cons x xs =>
    simp only [splitCharL]
    split
    · simp
    · split <;> simp

theorem splitCharL_no_sep (c : Char) (t : List Char) (h : c ∉ t) :
    splitCharL c t = [t] := by
  induction t with
  | nil => rfl
  | cons x xs ih =>
    have hx : x ≠ c := fun hxc => h (hxc ▸ List.mem_cons_self x xs)
    have hxs : c ∉ xs := fun hc => h (List.mem_cons_of_mem x hc)
    simp only [splitCharL, ih hxs, if_neg hx]

theorem splitCharL_append_sep (c : Char) (t l : List Char) (h : c ∉ t) :
    splitCharL c (t ++ c :: l) = t :: splitCharL c l := by
  induction t with
  | nil =>
    simp only [List.nil_append, splitCharL]
    split
    next heq => simp [heq]
    next t₁ ts₁ heq => simp only [if_true]; rw [heq]
  | cons x xs ih =>
    have hx : x ≠ c := fun hxc => h (hxc ▸ List.mem_cons_self x xs)
    have hxs : c ∉ xs := fun hc => h (List.mem_cons_of_mem x hc)
    rw [List.cons_append]
    simp only [splitCharL, ih hxs]
    rw [if_neg hx]

theorem splitCharL_joinSepL (c : Char) :
    ∀ ts : List (List Char), ts ≠ [] → (∀ t ∈ ts, c ∉ t) →
      splitCharL c (joinSepL c ts) = ts
  | [], h, _ => absurd rfl h
  | [t], _, hsep => by
    simpa [joinSepL] using splitCharL_no_sep c t (hsep t (by simp))
  | t :: u :: ts, _, hsep => by
    have ht : c ∉ t := hsep t (by simp)
    have hrest : ∀ v ∈ u :: ts, c ∉ v := fun v hv => hsep v (List.mem_cons_of_mem t hv)
    simp only [joinSepL, splitCharL_append_sep c t _ ht]
    rw [splitCharL_joinSepL c (u :: ts) (by simp) hrest]

theorem pyStripL_of_no_space (l : List Char) (h : ∀ x ∈ l, isPySpace x = false) :
    pyStripL l = l := by
  have h₁ : l.dropWhile isPySpace = l := by
    cases l with
    | nil => rfl
    | cons x xs => simp [List.dropWhile_cons, h x (by simp)]
  have h₂ : l.reverse.dropWhile isPySpace = l.reverse := by
    cases hr : l.reverse with
    | nil => rfl
    | cons x xs =>
      have : x ∈ l := by
        have : x ∈ l.reverse := hr ▸ List.mem_cons_self x xs
        simpa using this
      simp [List.dropWhile_cons, h x this]
  simp [pyStripL, h₁, h₂]

theorem natToCharsAux_decomp :
    ∀ (fuel n : Nat) (acc : List Char),
      natToCharsAux fuel n acc = natToCharsAux fuel n [] ++ acc
  | 0, _, _ => by simp [natToCharsAux]
  | fuel + 1, n, acc => by
    by_cases h : n < 10
    · simp [natToCharsAux, if_pos h]
    · rw [natToCharsAux, if_neg h, natToCharsAux, if_neg h,
        natToCharsAux_decomp fuel (n / 10) (digitCharOf (n % 10) :: acc),
        natToCharsAux_decomp fuel (n / 10) [digitCharOf (n % 10)]]
      simp

theorem natToCharsL_ne_nil (n : Nat) : natToCharsL n ≠ [] := by
  rw [natToCharsL, natToCharsAux]
  by_cases h : n < 10
  · simp [if_pos h]
  · rw [if_neg h, natToCharsAux_decomp]
    simp

theorem digitCharOf_isDigit {d : Nat} (h : d < 10) : (digitCharOf d).isDigit = true := by
  interval_cases d <;> decide

theorem digitVal_digitCharOf {d : Nat} (h : d < 10) : digitVal (digitCharOf d) = d := by
  interval_cases d <;> decide

theorem natToCharsAux_all_digits :
    ∀ (fuel n : Nat) (acc : List Char), (∀ c ∈ acc, c.isDigit = true) →
      ∀ c ∈ natToCharsAux fuel n acc, c.isDigit = true
  | 0, _, _, hacc => by simpa [natToCharsAux] using hacc
  | fuel + 1, n, acc, hacc => by
    by_cases h : n < 10
    · rw [natToCharsAux, if_pos h]
      intro c hc
      rcases List.mem_cons.1 hc with h₁ | h₁
      · exact h₁ ▸ digitCharOf_isDigit h
      · exact hacc c h₁
    · rw [natToCharsAux, if_neg h]
      refine natToCharsAux_all_digits fuel (n / 10) _ ?_
      intro c hc
      rcases List.mem_cons.1 hc with h₁ | h₁
      · exact h₁ ▸ digitCharOf_isDigit (Nat.mod_lt n (by omega))
      · exact hacc c h₁

theorem natToCharsL_all_digits (n : Nat) : ∀ c ∈ natToCharsL n, c.isDigit = true :=
  natToCharsAux_all_digits (n + 1) n [] (by simp)

theorem digit_not_space {c : Char} (h : c.isDigit = true) : isPySpace c = false := by
  simp only [isPySpace, decide_eq_false_iff_not]
  intro hs
  rcases hs with h₁ | h₁ | h₁ | h₁ | h₁ | h₁ <;> subst h₁ <;> exact absurd h (by decide)

theorem digit_ne_minus {c : Char} (h : c.isDigit = true) : c ≠ '-' := by
  intro hc; subst hc; exact absurd h (by decide)

theorem digit_ne_plus {c : Char} (h : c.isDigit = true) : c ≠ '+' := by
  intro hc; subst hc; exact absurd h (by decide)

theorem digit_ne_comma {c : Char} (h : c.isDigit = true) : c ≠ ',' := by
  intro hc; subst hc; exact absurd h (by decide)

theorem natToCharsAux_foldl :
    ∀ (fuel n : Nat), n < 10 ^ fuel → 0 < fuel →
      (natToCharsAux fuel n []).foldl (fun a c => 10 * a + digitVal c) 0 = n
  | 0, _, _, hf => absurd hf (by omega)
  | fuel + 1, n, h, _ => by
    by_cases h10 : n < 10
    · rw [natToCharsAux, if_pos h10]
      simp [List.foldl, digitVal_digitCharOf h10]
    · rw [natToCharsAux, if_neg h10, natToCharsAux_decomp, List.foldl_append]
      have hfuel : 0 < fuel := by
        rcases Nat.eq_zero_or_pos fuel with hf0 | hf0
        · subst hf0
          simp at h
          omega
        · exact hf0
      have hdiv : n / 10 < 10 ^ fuel := by
        rw [Nat.div_lt_iff_lt_mul (by omega)]
        calc n < 10 ^ (fuel + 1) := h
          _ = 10 ^ fuel * 10 := by rw [pow_succ]
      rw [natToCharsAux_foldl fuel (n / 10) hdiv hfuel]
      simp only [List.foldl, digitVal_digitCharOf (Nat.mod_lt n (by omega))]
      omega

theorem digitsValL_natToCharsL (n : Nat) : digitsValL (natToCharsL n) = some n := by
  rw [digitsValL, if_pos ⟨natToCharsL_ne_nil n, by
    simpa [List.all_eq_true] using natToCharsL_all_digits n⟩]
  have hlt : n < 10 ^ (n + 1) :=
    lt_of_lt_of_le (Nat.lt_pow_self (by omega) n)
      (Nat.pow_le_pow_right (by omega) (by omega))
  rw [natToCharsL]
  exact congrArg some (natToCharsAux_foldl (n + 1) n hlt (by omega))

theorem pyParseIntL_natToCharsL (n : Nat) : pyParseIntL (natToCharsL n) = some (n : Int) := by
  have hd := natToCharsL_all_digits n
  have hstrip : pyStripL (natToCharsL n) = natToCharsL n :=
    pyStripL_of_no_space _ (fun x hx => digit_not_space (hd x hx))
  have hhead : ∀ ch : Char, (natToCharsL n).head? = some ch → ch.isDigit = true := by
    intro ch hch
    exact hd ch (List.mem_of_mem_head? hch)
  have h₁ : ¬((natToCharsL n).head? = some '-') :=
    fun hm => absurd rfl (digit_ne_minus (hhead '-' hm))
  have h₂ : ¬((natToCharsL n).head? = some '+') :=
    fun hm => absurd rfl (digit_ne_plus (hhead '+' hm))
  rw [pyParseIntL, hstrip, if_neg h₁, if_neg h₂, digitsValL_natToCharsL]
  rfl

theorem pyParseInt_pyStr {i : Int} (h : 0 ≤ i) : pyParseInt (pyStr i) = some i := by
  have : intToCharsL i = natToCharsL i.toNat := by
    rw [intToCharsL, if_neg (by omega)]
  rw [pyParseInt, pyStr]
  show pyParseIntL (intToCharsL i) = some i
  rw [this, pyParseIntL_natToCharsL, Int.toNat_of_nonneg h]

theorem pyStr_data_digits {i : Int} (h : 0 ≤ i) :
    ∀ c ∈ (pyStr i).data, c.isDigit = true := by
  intro c hc
  have : (pyStr i).data = natToCharsL i.toNat := by
    show intToCharsL i = natToCharsL i.toNat
    rw [intToCharsL, if_neg (by omega)]
  exact natToCharsL_all_digits i.toNat c (this ▸ hc)

theorem pyStr_data_ne_nil (i : Int) : (pyStr i).data ≠ [] := by
  show intToCharsL i ≠ []
  rw [intToCharsL]
  split
  · simp
  · exact natToCharsL_ne_nil _

theorem dictLookup_dictSet (d : List (String × String)) (k v k₁ : String) :
    dictLookup (dictSet d k v) k₁ = if k₁ = k then some v else dictLookup d k₁ := by
  induction d with
  | nil =>
    by_cases h : k = k₁
    · subst h
      simp [dictSet, dictLookup]
    · simp only [dictSet, dictLookup, if_neg h]
      rw [if_neg (fun hk => h hk.symm)]
  | cons p rest ih =>
    obtain ⟨k₂, v₂⟩ := p
    by_cases h₂ : k₂ = k
    · subst h₂
      by_cases h : k₂ = k₁
      · subst h
        simp [dictSet, dictLookup]
      · simp only [dictSet, if_pos rfl, dictLookup, if_neg h]
        rw [if_neg (fun hk => h hk.symm)]
    · by_cases h₃ : k₂ = k₁
      · subst h₃
        simp only [dictSet, if_neg h₂, dictLookup, if_pos rfl]
        simp [h₂]
      · simp only [dictSet, if_neg h₂, dictLookup, if_neg h₃, ih]

theorem str_append_empty (s : String) : s ++ "" = s := by
  apply String.ext
  simp [String.data_append]

theorem pyJoin_singleton (c : Char) (t : String) : pyJoin c [t] = t := by
  apply String.ext
  simp [pyJoin, joinSepL]

theorem pyJoin_cons₂ (c : Char) (t u : String) (ts : List String) :
    pyJoin c (t :: u :: ts) = t ++ ⟨[c]⟩ ++ pyJoin c (u :: ts) := by
  apply String.ext
  simp [pyJoin, joinSepL, String.data_append]

theorem underscore_join :
    ∀ l : List String,
      (if l = [] then "" else "_" ++ pyJoin '_' l)
        = concatAll (l.map (fun p => "_" ++ p))
  | [] => by simp [concatAll]
  | [t] => by
    simp only [List.map, concatAll, pyJoin_singleton, str_append_empty, if_neg
      (by simp : ¬([t] = ([] : List String)))]
  | t :: u :: ts => by
    have ih := underscore_join (u :: ts)
    rw [if_neg (by simp : ¬(u :: ts = ([] : List String)))] at ih
    rw [if_neg (by simp : ¬(t :: u :: ts = ([] : List String))), pyJoin_cons₂]
    have hc : ("_" : String) = ⟨['_']⟩ := rfl
    calc ("_" : String) ++ (t ++ ⟨['_']⟩ ++ pyJoin '_' (u :: ts))
        = ("_" ++ t) ++ (⟨['_']⟩ ++ pyJoin '_' (u :: ts)) := by
          rw [String.append_assoc, String.append_assoc]
      _ = ("_" ++ t) ++ concatAll ((u :: ts).map (fun p => "_" ++ p)) := by
          rw [← hc, ih]
      _ = concatAll ((t :: u :: ts).map (fun p => "_" ++ p)) := rfl

theorem concatAll_append (l₁ l₂ : List String) :
    concatAll (l₁ ++ l₂) = concatAll l₁ ++ concatAll l₂ := by
  induction l₁ with
  | nil =>
    simp only [List.nil_append, concatAll]
    rw [show ("" : String) ++ concatAll l₂ = concatAll l₂ from String.ext (by
      simp [String.data_append])]
  | cons s rest ih =>
    simp only [List.cons_append, concatAll, List.append_eq, ih, String.append_assoc]

theorem dir_parts_concat (direction : String) :
    concatAll ((if direction ≠ "" ∧ direction ≠ "0" ∧ direction ≠ "F" then
        ["dir" ++ direction] else []).map (fun p => "_" ++ p))
      = (if direction ≠ "" ∧ direction ≠ "0" ∧ direction ≠ "F" then
          "_dir" ++ direction else "") := by
  by_cases h : direction ≠ "" ∧ direction ≠ "0" ∧ direction ≠ "F"
  · rw [if_pos h, if_pos h]
    simp only [List.map, concatAll, str_append_empty]
    rw [← String.append_assoc]
    rfl
  · rw [if_neg h, if_neg h]
    rfl

theorem spd_parts_concat (speed : String) :
    concatAll ((if speed ≠ "" ∧ speed ≠ "0" then
        (match pyParseInt speed with
         | some speed_int => if speed_int ≠ 0 then ["spd" ++ pyStr speed_int] else []
         | none => []) else []).map (fun p => "_" ++ p))
      = (match pyParseInt speed with
         | some n => if n ≠ 0 then "_spd" ++ pyStr n else ""
         | none => "") := by
  by_cases h : speed ≠ "" ∧ speed ≠ "0"
  · rw [if_pos h]
    cases hp : pyParseInt speed with
    | none => rfl
    | some n =>
      show concatAll ((if n ≠ 0 then ["spd" ++ pyStr n] else []).map (fun p => "_" ++ p))
        = (if n ≠ 0 then "_spd" ++ pyStr n else "")
      by_cases hn : n ≠ 0
      · rw [if_pos hn, if_pos hn]
        simp only [List.map, concatAll, str_append_empty]
        rw [← String.append_assoc]
        rfl
      · rw [if_neg hn, if_neg hn]
        rfl
  · rw [if_neg h]
    rcases Decidable.not_and_iff_or_not.mp h with h₁ | h₁
    · rw [Decidable.not_not.mp h₁]
      rfl
    · rw [Decidable.not_not.mp h₁]
      rfl

theorem colors_parts_concat (num_colors plan_type : String) :
    concatAll ((if plan_type ≠ "spotlight" ∧ num_colors ≠ "" then
        (match pyParseInt num_colors with
         | some num_colors_int =>
             if num_colors_int > 1 then [pyStr num_colors_int ++ "colors"] else []
         | none => []) else []).map (fun p => "_" ++ p))
      = (if plan_type = "spotlight" then ""
         else match pyParseInt num_colors with
           | some n => if n > 1 then "_" ++ pyStr n ++ "colors" else ""
           | none => "") := by
  by_cases hpt : plan_type = "spotlight"
  · rw [if_pos hpt, if_neg (fun hc => hc.1 hpt)]
    rfl
  · rw [if_neg hpt]
    by_cases hnc : num_colors = ""
    · rw [if_neg (fun hc => hc.2 hnc), hnc]
      rfl
    · rw [if_pos ⟨hpt, hnc⟩]
      cases hp : pyParseInt num_colors with
      | none => rfl
      | some n =>
        show concatAll ((if n > 1 then [pyStr n ++ "colors"] else []).map (fun p => "_" ++ p))
          = (if n > 1 then "_" ++ pyStr n ++ "colors" else "")
        by_cases hn : n > 1
        · rw [if_pos hn, if_pos hn]
          simp only [List.map, concatAll, str_append_empty, String.append_assoc]
        · rw [if_neg hn, if_neg hn]
          rfl

theorem firstNonzeroRgb_eq_find :
    ∀ ps : List String,
      firstNonzeroRgb ps
        = (match (parseTriplets ps).find? (fun t => decide (t ≠ (0, 0, 0))) with
           | some t => "_rgb" ++ pyStr t.1 ++ "-" ++ pyStr t.2.1 ++ "-" ++ pyStr t.2.2
           | none => "")
  | [] => rfl
  | [_] => rfl
  | [_, _] => rfl
  | p₀ :: p₁ :: p₂ :: rest => by
    have ih := firstNonzeroRgb_eq_find rest
    rw [firstNonzeroRgb, parseTriplets]
    cases h₀ : pyParseInt (pyStrip p₀) with
    | none => simpa using ih
    | some r =>
      cases h₁ : pyParseInt (pyStrip p₁) with
      | none => simpa using ih
      | some g =>
        cases h₂ : pyParseInt (pyStrip p₂) with
        | none => simpa using ih
        | some b =>
          simp only [List.singleton_append]
          by_cases hz : r ≠ 0 ∨ g ≠ 0 ∨ b ≠ 0
          · rw [if_pos hz]
            have hne : ((r, g, b) : Int × Int × Int) ≠ (0, 0, 0) := by
              simp only [ne_eq, Prod.mk.injEq, not_and]
              intro hr hg
              rcases hz with h | h | h
              · exact absurd hr h
              · exact absurd hg h
              · exact h
            rw [List.find?_cons_of_pos _ (by simp only [decide_eq_true_eq]; exact hne)]
          · rw [if_neg hz]
            have heq : ((r, g, b) : Int × Int × Int) = (0, 0, 0) := by
              push_neg at hz
              simp [hz.1, hz.2.1, hz.2.2]
            rw [List.find?_cons_of_neg _ (by simp [heq]), ih]

/-- Claim C2: `generate_pattern_id` is a deterministic function of
`url_params` and `plan_type` (it is a pure function of exactly these two
inputs, with no time or randomness source), and it equals the
concatenation of the `patternType` value with the direction, speed,
color-count and first-non-zero-RGB suffixes described by the
specification (`generate_pattern_id_spec`). -/
theorem generate_pattern_id_eq_spec (url_params : List (String × String))
    (plan_type : String) :
    generate_pattern_id url_params plan_type
      = generate_pattern_id_spec url_params plan_type := by
  rw [generate_pattern_id, generate_pattern_id_spec, pattern_id_direction_part,
    pattern_id_speed_part, pattern_id_colors_part, pattern_id_rgb_part]
  have hassembly := underscore_join
    ((if dictGet url_params "direction" "F" ≠ "" ∧ dictGet url_params "direction" "F" ≠ "0" ∧
          dictGet url_params "direction" "F" ≠ "F" then
        ["dir" ++ dictGet url_params "direction" "F"] else [])
      ++ (if dictGet url_params "speed" "0" ≠ "" ∧ dictGet url_params "speed" "0" ≠ "0" then
        (match pyParseInt (dictGet url_params "speed" "0") with
         | some speed_int => if speed_int ≠ 0 then ["spd" ++ pyStr speed_int] else []
         | none => []) else [])
      ++ (if plan_type ≠ "spotlight" ∧ dictGet url_params "num_colors" "1" ≠ "" then
        (match pyParseInt (dictGet url_params "num_colors" "1") with
         | some num_colors_int =>
             if num_colors_int > 1 then [pyStr num_colors_int ++ "colors"] else []
         | none => []) else []))
  rw [← ite_not] at hassembly
  rw [hassembly, List.map_append, List.map_append, concatAll_append, concatAll_append,
    dir_parts_concat, spd_parts_concat, colors_parts_concat]
  have hrgb : (if dictGet url_params "colors" "" ≠ "" then
        firstNonzeroRgb (pySplitOn (dictGet url_params "colors" "") ',') else "")
      = (match (parseTriplets (pySplitOn (dictGet url_params "colors" "") ',')).find?
            (fun t => decide (t ≠ (0, 0, 0))) with
         | some t => "_rgb" ++ pyStr t.1 ++ "-" ++ pyStr t.2.1 ++ "-" ++ pyStr t.2.2
         | none => "") := by
    by_cases hc : dictGet url_params "colors" "" = ""
    · rw [if_neg (fun hne => hne hc), hc]
      rfl
    · rw [if_pos hc, firstNonzeroRgb_eq_find]
  rw [hrgb]
  simp only [String.append_assoc]

/-- Claim C3 counterexample: on the spec's example input
(`num_colors = "6"`), `generate_pattern_id` does not return
`"march_dirR_spd3_2colors_rgb255-92-0"` — the color-count suffix uses the
`num_colors` value itself (`6colors`), not the number of CSV triplets. -/
theorem generate_pattern_id_march_counterexample :
    generate_pattern_id
      [("patternType", "march"), ("direction", "R"), ("speed", "3"),
       ("num_colors", "6"), ("colors", "255,92,0,255,92,0")] "non-spotlight"
      ≠ "march_dirR_spd3_2colors_rgb255-92-0" := by decide

/-- Claim C3 amended: on the url_params
`patternType=march, direction=R, speed=3, num_colors=6,
colors=255,92,0,255,92,0` with plan type `"non-spotlight"`,
`generate_pattern_id` returns `"march_dirR_spd3_6colors_rgb255-92-0"`
(the suffix is `{num_colors}colors`, i.e. `6colors`). -/
theorem generate_pattern_id_march_example :
    generate_pattern_id
      [("patternType", "march"), ("direction", "R"), ("speed", "3"),
       ("num_colors", "6"), ("colors", "255,92,0,255,92,0")] "non-spotlight"
      = "march_dirR_spd3_6colors_rgb255-92-0" := by decide

/-- Claim C8 counterexample: for `original_colors = "10,20"` (no complete
RGB triplet) `modify_spotlight_plan_colors` returns the malformed input
string unchanged; it does not fall back to the default color
`(255,255,255)` (which would give `"255,255,255,0,0,0,0,0,0,0,0,0"` for
indices `"1"` and 4 LEDs). -/
theorem modify_spotlight_malformed_counterexample :
    modify_spotlight_plan_colors "10,20" "1" 1 4 = "10,20" ∧
    modify_spotlight_plan_colors "10,20" "1" 1 4 ≠ "255,255,255,0,0,0,0,0,0,0,0,0" := by
  constructor
  · decide
  · decide

/-- Claim C8 amended: when the stored `original_colors` contains no valid
RGB triplet, `modify_spotlight_plan_colors` does not abort: it logs a
warning and returns the `original_colors` string unchanged.  (The
`(255,255,255)` fallback literal in the source, line 161, is unreachable:
the function returns at line 158 first.) -/
theorem modify_spotlight_malformed_returns_original
    (original_colors led_indices_str : String) (num_colors max_leds : Int)
    (h : parseTripletsClamped (pySplitOn original_colors ',') = []) :
    modify_spotlight_plan_colors original_colors led_indices_str num_colors max_leds
      = original_colors := by
  rw [modify_spotlight_plan_colors, h]

/-- Witness for the amended C8 theorem at a concrete malformed input. -/
theorem modify_spotlight_malformed_returns_original_witness :
    parseTripletsClamped (pySplitOn "5,6" ',') = [] ∧
    modify_spotlight_plan_colors "5,6" "1,2" 1 4 = "5,6" :=
  ⟨by decide, modify_spotlight_malformed_returns_original "5,6" "1,2" 1 4 (by decide)⟩

/-! ### Lemmas about LED-index normalization -/

theorem parseIndicesStrict_range :
    ∀ (ps : List String) (m : Int) (l : List Int),
      parseIndicesStrict ps m = some l → ∀ i ∈ l, 1 ≤ i ∧ i ≤ m
  | [], _, l, h => by
    simp only [parseIndicesStrict, Option.some.injEq] at h
    subst h
    simp
  | p :: ps, m, l, h => by
    rw [parseIndicesStrict] at h
    by_cases hb : pyStrip p = ""
    · rw [if_pos hb] at h
      exact parseIndicesStrict_range ps m l h
    · rw [if_neg hb] at h
      cases hp : pyParseInt (pyStrip p) with
      | none => rw [hp] at h; exact absurd h (by simp)
      | some idx =>
        rw [hp] at h
        cases hr : parseIndicesStrict ps m with
        | none => rw [hr] at h; exact absurd h (by simp)
        | some rest =>
          rw [hr] at h
          simp only [Option.map_some', Option.some.injEq] at h
          subst h
          intro i hi
          by_cases hin : 1 ≤ idx ∧ idx ≤ m
          · rw [if_pos hin] at hi
            rcases List.mem_cons.1 hi with h₁ | h₁
            · exact h₁ ▸ hin
            · exact parseIndicesStrict_range ps m rest hr i h₁
          · rw [if_neg hin] at hi
            exact parseIndicesStrict_range ps m rest hr i hi

theorem parseIndicesStrict_eq_filter :
    ∀ (ps : List String) (m : Int) (l : List Int),
      parseIndicesStrict ps m = some l →
      l = (ps.filterMap (fun p => pyParseInt (pyStrip p))).filter
            (fun i => decide (1 ≤ i) && decide (i ≤ m))
  | [], _, l, h => by
    simp only [parseIndicesStrict, Option.some.injEq] at h
    subst h
    rfl
  | p :: ps, m, l, h => by
    rw [parseIndicesStrict] at h
    by_cases hb : pyStrip p = ""
    · rw [if_pos hb] at h
      have hnone : pyParseInt (pyStrip p) = none := by
        rw [hb]
        rfl
      rw [List.filterMap_cons, hnone]
      exact parseIndicesStrict_eq_filter ps m l h
    · rw [if_neg hb] at h
      cases hp : pyParseInt (pyStrip p) with
      | none => rw [hp] at h; exact absurd h (by simp)
      | some idx =>
        rw [hp] at h
        cases hr : parseIndicesStrict ps m with
        | none => rw [hr] at h; exact absurd h (by simp)
        | some rest =>
          rw [hr] at h
          simp only [Option.map_some', Option.some.injEq] at h
          subst h
          rw [List.filterMap_cons, hp, List.filter_cons]
          have ih := parseIndicesStrict_eq_filter ps m rest hr
          by_cases hin : 1 ≤ idx ∧ idx ≤ m
          · rw [if_pos hin, if_pos (by simp [hin.1, hin.2]), ih]
          · rw [if_neg hin, if_neg (by
              simp only [Bool.and_eq_true, decide_eq_true_eq]
              exact fun hc => hin hc), ih]

theorem pySortedSet_sorted (l : List Int) : (pySortedSet l).Sorted (· ≤ ·) :=
  List.sorted_insertionSort _ _

theorem pySortedSet_nodup (l : List Int) : (pySortedSet l).Nodup :=
  ((List.perm_insertionSort _ _).symm).nodup (List.nodup_dedup l)

theorem pySortedSet_mem (l : List Int) (i : Int) : i ∈ pySortedSet l ↔ i ∈ l := by
  rw [pySortedSet]
  rw [(List.perm_insertionSort (· ≤ ·) l.dedup).mem_iff]
  exact List.mem_dedup

theorem pySortedSet_sorted_lt (l : List Int) : (pySortedSet l).Sorted (· < ·) :=
  (pySortedSet_sorted l).lt_of_le (pySortedSet_nodup l)

theorem pySortedSet_fixed {u : List Int} (hs : u.Sorted (· ≤ ·)) (hn : u.Nodup) :
    pySortedSet u = u := by
  rw [pySortedSet, hn.dedup]
  exact hs.insertionSort_eq

theorem pySplitOn_pyJoin (ts : List String) (c : Char) (hne : ts ≠ [])
    (hsep : ∀ t ∈ ts, c ∉ t.data) :
    pySplitOn (pyJoin c ts) c = ts := by
  rw [pySplitOn, pyJoin]
  show (splitCharL c (joinSepL c (ts.map String.data))).map (fun t => (⟨t⟩ : String)) = ts
  rw [splitCharL_joinSepL c (ts.map String.data) (by simpa using hne) (by
    intro t ht
    rcases List.mem_map.1 ht with ⟨u, hu, rfl⟩
    exact hsep u hu)]
  rw [List.map_map]
  have hid : ((fun t => (⟨t⟩ : String)) ∘ String.data) = id := by
    funext u
    rfl
  rw [hid, List.map_id]

theorem mem_joinSepL (c : Char) :
    ∀ (ts : List (List Char)) (x : Char), x ∈ joinSepL c ts →
      (∃ t ∈ ts, x ∈ t) ∨ x = c
  | [], x, hx => by simp [joinSepL] at hx
  | [t], x, hx => Or.inl ⟨t, by simp, hx⟩
  | t :: u :: ts, x, hx => by
    rw [joinSepL] at hx
    rcases List.mem_append.1 hx with h₁ | h₁
    · exact Or.inl ⟨t, by simp, h₁⟩
    · rcases List.mem_cons.1 h₁ with h₂ | h₂
      · exact Or.inr h₂
      · rcases mem_joinSepL c (u :: ts) x h₂ with ⟨v, hv, hxv⟩ | h₃
        · exact Or.inl ⟨v, List.mem_cons_of_mem t hv, hxv⟩
        · exact Or.inr h₃

theorem pyStrip_pyStr {i : Int} (h : 0 ≤ i) : pyStrip (pyStr i) = pyStr i := by
  apply String.ext
  show pyStripL (intToCharsL i) = intToCharsL i
  exact pyStripL_of_no_space _ (fun x hx => digit_not_space (pyStr_data_digits h x hx))

theorem pyStr_ne_empty (i : Int) : pyStr i ≠ "" := by
  intro h
  exact pyStr_data_ne_nil i (congrArg String.data h)

theorem parse_serialized (m : Int) :
    ∀ u : List Int, (∀ i ∈ u, 1 ≤ i ∧ i ≤ m) →
      parseIndicesStrict (u.map pyStr) m = some u
  | [], _ => rfl
  | i :: rest, h => by
    have hi := h i (List.mem_cons_self i rest)
    have h0 : (0 : Int) ≤ i := by omega
    rw [List.map_cons]
    rw [parseIndicesStrict]
    simp only [pyStrip_pyStr h0]
    rw [if_neg (pyStr_ne_empty i), pyParseInt_pyStr h0,
      parse_serialized m rest (fun j hj => h j (List.mem_cons_of_mem i hj))]
    simp [hi.1, hi.2]

theorem normalize_empty (m : Int) : normalize_led_indices "" m = "" := by
  rw [normalize_led_indices, if_pos (Or.inl rfl)]

theorem normalize_of_serialized (u : List Int) (m : Int) (hne : u ≠ [])
    (hs : u.Sorted (· ≤ ·)) (hn : u.Nodup) (hr : ∀ i ∈ u, 1 ≤ i ∧ i ≤ m) :
    normalize_led_indices (pyJoin ',' (u.map pyStr)) m = pyJoin ',' (u.map pyStr) := by
  have htokens : ∀ t ∈ u.map pyStr, ',' ∉ t.data := by
    intro t ht hc
    rcases List.mem_map.1 ht with ⟨i, hi, rfl⟩
    exact digit_ne_comma (pyStr_data_digits (by have := (hr i hi).1; omega) ',' hc) rfl
  have hnospace : ∀ x ∈ (pyJoin ',' (u.map pyStr)).data, isPySpace x = false := by
    intro x hx
    rcases mem_joinSepL ',' ((u.map pyStr).map String.data) x hx with ⟨t, ht, hxt⟩ | hcomma
    · rcases List.mem_map.1 ht with ⟨w, hw, rfl⟩
      rcases List.mem_map.1 hw with ⟨i, hi, rfl⟩
      exact digit_not_space (pyStr_data_digits (by have := (hr i hi).1; omega) x hxt)
    · subst hcomma
      decide
  have hdata_ne : (pyJoin ',' (u.map pyStr)).data ≠ [] := by
    cases u with
    | nil => exact absurd rfl hne
    | cons i rest =>
      cases rest with
      | nil =>
        show joinSepL ',' [(pyStr i).data] ≠ []
        simpa [joinSepL] using pyStr_data_ne_nil i
      | cons j rest₂ =>
        show joinSepL ',' ((pyStr i).data :: (pyStr j).data ::
          (rest₂.map pyStr).map String.data) ≠ []
        rw [joinSepL]
        simp
  have hjoin_ne : pyJoin ',' (u.map pyStr) ≠ "" := by
    intro h
    exact hdata_ne (congrArg String.data h)
  have hstrip : pyStrip (pyJoin ',' (u.map pyStr)) = pyJoin ',' (u.map pyStr) := by
    apply String.ext
    exact pyStripL_of_no_space _ hnospace
  rw [normalize_led_indices, if_neg (by
    rintro (h | h)
    · exact hjoin_ne h
    · rw [hstrip] at h
      exact hjoin_ne h)]
  rw [pySplitOn_pyJoin (u.map pyStr) ',' (by simpa using hne) htokens,
    parse_serialized m u hr]
  show pyJoin ',' ((pySortedSet u).map pyStr) = pyJoin ',' (u.map pyStr)
  rw [pySortedSet_fixed hs hn]

/-- Claim C6 counterexample: a non-numeric token is not silently dropped;
it makes `normalize_led_indices` return `""` (the claimed result for
`"1,x,3"` with the other tokens kept would be `"1,3"`). -/
theorem normalize_led_indices_counterexample :
    normalize_led_indices "1,x,3" 10 = "" ∧
    normalize_led_indices "1,x,3" 10 ≠ "1,3" := ⟨by decide, by decide⟩

/-- Claim C6 amended: `normalize_led_indices(s, max)` parses the
comma-separated tokens, silently dropping empty and out-of-range tokens,
but a non-numeric token makes the whole function return `""` (the parse
loop sits in a single `try`); on success it deduplicates, sorts ascending
and re-serializes the surviving indices; `normalize_led_indices
("4,1,1,2,3", 10) = "1,2,3,4"`.  (It returns `""` also for blank input and
when every token is dropped.) -/
theorem normalize_led_indices_spec :
    normalize_led_indices "4,1,1,2,3" 10 = "1,2,3,4"
    ∧ (∀ (s : String) (m : Int), parseIndicesStrict (pySplitOn s ',') m = none →
        normalize_led_indices s m = "")
    ∧ (∀ (ps : List String) (m : Int) (l : List Int), parseIndicesStrict ps m = some l →
        l = (ps.filterMap (fun p => pyParseInt (pyStrip p))).filter
              (fun i => decide (1 ≤ i) && decide (i ≤ m)))
    ∧ (∀ (s : String) (m : Int) (l : List Int),
        parseIndicesStrict (pySplitOn s ',') m = some l → pyStrip s ≠ "" →
        normalize_led_indices s m = pyJoin ',' ((pySortedSet l).map pyStr)
          ∧ (pySortedSet l).Sorted (· < ·) ∧ ∀ i, i ∈ pySortedSet l ↔ i ∈ l) := by
  refine ⟨by decide, ?_, parseIndicesStrict_eq_filter, ?_⟩
  · intro s m h
    rw [normalize_led_indices]
    by_cases hb : s = "" ∨ pyStrip s = ""
    · rw [if_pos hb]
    · rw [if_neg hb, h]
  · intro s m l h hs
    refine ⟨?_, pySortedSet_sorted_lt l, fun i => pySortedSet_mem l i⟩
    rw [normalize_led_indices, if_neg (by
      rintro (rfl | hc)
      · exact hs rfl
      · exact hs hc), h]

/-- Witness for the amended C6 theorem at concrete inputs. -/
theorem normalize_led_indices_spec_witness :
    normalize_led_indices "1,x,3" 7 = ""
    ∧ normalize_led_indices "5, 2,900,2" 10
        = pyJoin ',' ((pySortedSet [5, 2, 2]).map pyStr) :=
  ⟨normalize_led_indices_spec.2.1 "1,x,3" 7 (by decide),
   (normalize_led_indices_spec.2.2.2 "5, 2,900,2" 10 [5, 2, 2] (by decide) (by decide)).1⟩

/-- Claim C7: `normalize_led_indices` is idempotent — normalizing an
already-normalized LED-index string returns it unchanged, for every input
string and every bound. -/
theorem normalize_led_indices_idempotent (s : String) (m : Int) :
    normalize_led_indices (normalize_led_indices s m) m = normalize_led_indices s m := by
  by_cases hb : s = "" ∨ pyStrip s = ""
  · rw [show normalize_led_indices s m = "" from by rw [normalize_led_indices, if_pos hb]]
    exact normalize_empty m
  · cases hp : parseIndicesStrict (pySplitOn s ',') m with
    | none =>
      rw [show normalize_led_indices s m = "" from by
        rw [normalize_led_indices, if_neg hb, hp]]
      exact normalize_empty m
    | some idxs =>
      have heq : normalize_led_indices s m = pyJoin ',' ((pySortedSet idxs).map pyStr) := by
        rw [normalize_led_indices, if_neg hb, hp]
      rcases eq_or_ne (pySortedSet idxs) [] with hu | hu
      · rw [heq, hu]
        simp only [List.map_nil]
        exact normalize_empty m
      · rw [heq]
        exact normalize_of_serialized (pySortedSet idxs) m hu (pySortedSet_sorted idxs)
          (pySortedSet_nodup idxs)
          (fun i hi => parseIndicesStrict_range _ m idxs hp i ((pySortedSet_mem idxs i).1 hi))

/-! ### Lemmas about spotlight reconstruction -/

theorem parseIndicesLoose_range :
    ∀ (ps : List String) (m : Int), ∀ i ∈ parseIndicesLoose ps m, 1 ≤ i ∧ i ≤ m
  | [], _ => by simp [parseIndicesLoose]
  | p :: ps, m => by
    intro i hi
    rw [parseIndicesLoose] at hi
    by_cases hb : pyStrip p = ""
    · rw [if_pos hb] at hi
      exact parseIndicesLoose_range ps m i hi
    · rw [if_neg hb] at hi
      cases hp : pyParseInt (pyStrip p) with
      | none =>
        rw [hp] at hi
        exact parseIndicesLoose_range ps m i hi
      | some idx =>
        simp only [hp] at hi
        by_cases hin : 1 ≤ idx ∧ idx ≤ m
        · rw [if_pos hin] at hi
          rcases List.mem_cons.1 hi with h₁ | h₁
          · exact h₁ ▸ hin
          · exact parseIndicesLoose_range ps m i h₁
        · rw [if_neg hin] at hi
          exact parseIndicesLoose_range ps m i hi

theorem parseTripletsClamped_nonneg :
    ∀ ps : List String, ∀ t ∈ parseTripletsClamped ps,
      0 ≤ t.1 ∧ 0 ≤ t.2.1 ∧ 0 ≤ t.2.2
  | [] => by simp [parseTripletsClamped]
  | [_] => by simp [parseTripletsClamped]
  | [_, _] => by simp [parseTripletsClamped]
  | p₀ :: p₁ :: p₂ :: rest => by
    intro t ht
    rw [parseTripletsClamped] at ht
    rcases List.mem_append.1 ht with h₁ | h₁
    · cases h₀ : pyParseInt (pyStrip p₀) with
      | none => rw [h₀] at h₁; simp at h₁
      | some r =>
        cases hg : pyParseInt (pyStrip p₁) with
        | none => rw [h₀, hg] at h₁; simp at h₁
        | some g =>
          cases hb : pyParseInt (pyStrip p₂) with
          | none => rw [h₀, hg, hb] at h₁; simp at h₁
          | some b =>
            rw [h₀, hg, hb] at h₁
            simp only [List.mem_singleton] at h₁
            subst h₁
            refine ⟨le_max_left 0 _, le_max_left 0 _, le_max_left 0 _⟩
    · exact parseTripletsClamped_nonneg rest t h₁

theorem flatMapCongr {α β : Type} :
    ∀ (l : List α) (f g : α → List β), (∀ a ∈ l, f a = g a) → l.flatMap f = l.flatMap g
  | [], _, _, _ => rfl
  | a :: l, f, g, h => by
    rw [List.flatMap_cons, List.flatMap_cons, h a (List.mem_cons_self a l),
      flatMapCongr l f g (fun b hb => h b (List.mem_cons_of_mem a hb))]

theorem flatMap_map_proj :
    ∀ (l : List Nat) (B : Nat → Int × Int × Int),
      ((l.map B).flatMap (fun t => [t.1, t.2.1, t.2.2]))
        = l.flatMap (fun k => [(B k).1, (B k).2.1, (B k).2.2])
  | [], _ => rfl
  | k :: l, B => by
    rw [List.map_cons, List.flatMap_cons, List.flatMap_cons, flatMap_map_proj l B]

theorem flatMap_length_three {α : Type} :
    ∀ (l : List α) (f : α → List Int), (∀ a ∈ l, (f a).length = 3) →
      (l.flatMap f).length = 3 * l.length
  | [], _, _ => rfl
  | a :: l, f, h => by
    rw [List.flatMap_cons, List.length_append, h a (List.mem_cons_self a l),
      flatMap_length_three l f (fun b hb => h b (List.mem_cons_of_mem a hb)),
      List.length_cons]
    ring

/-- Claim C1: when `original_colors` holds at least one parseable RGB
triplet and `led_indices_str` at least one in-range index token,
`modify_spotlight_plan_colors` returns exactly the CSV of `3 * max_leds`
integers obtained by emitting, for each LED index `1 .. max_leds`, the
first parseable (clamped) triplet when the index is lit and `(0,0,0)`
otherwise; in particular
`modify_spotlight_plan_colors("10,20,30", "1,3", 1, 4)
 = "10,20,30,0,0,0,10,20,30,0,0,0"`. -/
theorem modify_spotlight_plan_colors_spec
    (original_colors led_indices_str : String) (num_colors max_leds : Int)
    (h1 : parseTripletsClamped (pySplitOn original_colors ',') ≠ [])
    (h2 : litIndices led_indices_str max_leds ≠ []) :
    modify_spotlight_plan_colors "10,20,30" "1,3" 1 4 = "10,20,30,0,0,0,10,20,30,0,0,0"
    ∧ modify_spotlight_plan_colors original_colors led_indices_str num_colors max_leds
        = pyJoin ','
            (((spotlightTriplets original_colors led_indices_str max_leds).flatMap
              (fun t => [t.1, t.2.1, t.2.2])).map pyStr)
    ∧ (pySplitOn
        (modify_spotlight_plan_colors original_colors led_indices_str num_colors max_leds)
        ',').length = 3 * max_leds.toNat
    ∧ (spotlightTriplets original_colors led_indices_str max_leds).length = max_leds.toNat
    ∧ (∀ k, k < max_leds.toNat →
        (spotlightTriplets original_colors led_indices_str max_leds)[k]?
          = some (if ((k : Int) + 1) ∈ litIndices led_indices_str max_leds then
              firstBaseColor original_colors
            else (0, 0, 0))) := by
  have hflat : ∀ base : Int × Int × Int, ∀ idxs : List Int, ∀ n : Nat,
      ((List.range n).map (fun (k : Nat) =>
          if ((k : Int) + 1) ∈ idxs then base else (0, 0, 0))).flatMap
        (fun t => [t.1, t.2.1, t.2.2])
        = (List.range n).flatMap (fun (k : Nat) =>
            if ((k : Int) + 1) ∈ idxs then [base.1, base.2.1, base.2.2] else [0, 0, 0]) := by
    intro base idxs n
    rw [flatMap_map_proj]
    refine flatMapCongr _ _ _ ?_
    intro k _
    by_cases hm : ((k : Int) + 1) ∈ idxs
    · rw [if_pos hm, if_pos hm]
    · rw [if_neg hm, if_neg hm]
  -- main equality
  have hmain : modify_spotlight_plan_colors original_colors led_indices_str num_colors max_leds
      = pyJoin ','
          (((spotlightTriplets original_colors led_indices_str max_leds).flatMap
            (fun t => [t.1, t.2.1, t.2.2])).map pyStr) := by
    rw [modify_spotlight_plan_colors]
    cases hpt : parseTripletsClamped (pySplitOn original_colors ',') with
    | nil => exact absurd hpt h1
    | cons base tl =>
      have hbase : firstBaseColor original_colors = base := by
        rw [firstBaseColor, hpt]
        rfl
      rw [litIndices] at h2
      cases hpl : parseIndicesLoose (pySplitOn led_indices_str ',') max_leds with
      | nil => exact absurd hpl h2
      | cons j js =>
        have hlit : litIndices led_indices_str max_leds = j :: js := by
          rw [litIndices, hpl]
        rw [spotlightTriplets, hbase, hlit, hflat base (j :: js) max_leds.toNat]
  refine ⟨by decide, hmain, ?_, ?_, ?_⟩
  · -- token count
    rw [hmain]
    -- the flattened value list
    have hn1 : 1 ≤ max_leds := by
      rw [litIndices] at h2
      cases hpl : parseIndicesLoose (pySplitOn led_indices_str ',') max_leds with
      | nil => exact absurd hpl h2
      | cons j js =>
        have := parseIndicesLoose_range (pySplitOn led_indices_str ',') max_leds j
          (by rw [hpl]; exact List.mem_cons_self j js)
        omega
    have hvals_nonneg : ∀ v ∈ (spotlightTriplets original_colors led_indices_str
        max_leds).flatMap (fun t => [t.1, t.2.1, t.2.2]), 0 ≤ v := by
      intro v hv
      rcases List.mem_flatMap.1 hv with ⟨t, ht, hvt⟩
      rw [spotlightTriplets] at ht
      rcases List.mem_map.1 ht with ⟨k, _, hk⟩
      have htb : t = firstBaseColor original_colors ∨ t = (0, 0, 0) := by
        by_cases hm : ((k : Int) + 1) ∈ litIndices led_indices_str max_leds
        · rw [if_pos hm] at hk
          exact Or.inl hk.symm
        · rw [if_neg hm] at hk
          exact Or.inr hk.symm
      have hb0 : 0 ≤ t.1 ∧ 0 ≤ t.2.1 ∧ 0 ≤ t.2.2 := by
        rcases htb with rfl | rfl
        · have hmem : firstBaseColor original_colors
              ∈ parseTripletsClamped (pySplitOn original_colors ',') := by
            cases hpt : parseTripletsClamped (pySplitOn original_colors ',') with
            | nil => exact absurd hpt h1
            | cons base tl =>
              rw [firstBaseColor, hpt]
              exact List.mem_cons_self base tl
          exact parseTripletsClamped_nonneg _ _ hmem
        · refine ⟨le_refl 0, le_refl 0, le_refl 0⟩
      simp only [List.mem_cons, List.mem_singleton, List.not_mem_nil, or_false] at hvt
      rcases hvt with h | h | h
      · exact h ▸ hb0.1
      · exact h ▸ hb0.2.1
      · exact h ▸ hb0.2.2
    have hlen : ((spotlightTriplets original_colors led_indices_str max_leds).flatMap
        (fun t => [t.1, t.2.1, t.2.2])).length = 3 * max_leds.toNat := by
      rw [flatMap_length_three (spotlightTriplets original_colors led_indices_str max_leds)
        (fun t => [t.1, t.2.1, t.2.2]) (fun a _ => rfl), spotlightTriplets,
        List.length_map, List.length_range]
    have hne : ((spotlightTriplets original_colors led_indices_str max_leds).flatMap
        (fun t => [t.1, t.2.1, t.2.2])).map pyStr ≠ [] := by
      intro h
      have := congrArg List.length h
      rw [List.length_map, hlen] at this
      simp only [List.length_nil] at this
      omega
    rw [pySplitOn_pyJoin _ ',' hne (by
      intro t ht hc
      rcases List.mem_map.1 ht with ⟨v, hv, rfl⟩
      exact digit_ne_comma (pyStr_data_digits (hvals_nonneg v hv) ',' hc) rfl)]
    rw [List.length_map, hlen]
  · rw [spotlightTriplets, List.length_map, List.length_range]
  · intro k hk
    rw [spotlightTriplets, List.getElem?_map, List.getElem?_range hk]
    rfl

/-- Witness for the C1 theorem at the spec's example input. -/
theorem modify_spotlight_plan_colors_spec_witness :
    parseTripletsClamped (pySplitOn "10,20,30" ',') ≠ []
    ∧ litIndices "1,3" 4 ≠ []
    ∧ (pySplitOn (modify_spotlight_plan_colors "10,20,30" "1,3" 1 4) ',').length
        = 3 * (4 : Int).toNat
    ∧ modify_spotlight_plan_colors "10,20,30" "1,3" 1 4 = "10,20,30,0,0,0,10,20,30,0,0,0" := by
  have h := modify_spotlight_plan_colors_spec "10,20,30" "1,3" 1 4 (by decide) (by decide)
  exact ⟨by decide, by decide, h.2.2.1, h.1⟩

/-! ### Lemmas about pattern storage -/

theorem addPatternLoop_eq_none (p : StoredPattern) :
    ∀ patterns : List StoredPattern,
      addPatternLoop p patterns = none ↔ ∀ q ∈ patterns, q.id ≠ p.id
  | [] => by simp [addPatternLoop]
  | q :: rest => by
    rw [addPatternLoop]
    by_cases h : q.id = p.id
    · rw [if_pos h]
      simp only [List.mem_cons]
      constructor
      · intro hnone
        exact absurd hnone (by simp)
      · intro hall
        exact absurd h (hall q (Or.inl rfl))
    · rw [if_neg h]
      rw [Option.map_eq_none']
      rw [addPatternLoop_eq_none p rest]
      constructor
      · intro hall r hr
        rcases List.mem_cons.1 hr with h₁ | h₁
        · exact h₁ ▸ h
        · exact hall r h₁
      · intro hall r hr
        exact hall r (List.mem_cons_of_mem q hr)

theorem addPatternLoop_found (p : StoredPattern) :
    ∀ (patterns : List StoredPattern) (b : Bool) (l : List StoredPattern),
      addPatternLoop p patterns = some (b, l) →
      List.Forall₂ sameExceptName l patterns
  | [], _, _, h => by simp [addPatternLoop] at h
  | q :: rest, b, l, h => by
    rw [addPatternLoop] at h
    by_cases hq : q.id = p.id
    · rw [if_pos hq] at h
      by_cases hn : p.name ≠ "" ∧ p.name ≠ q.name
      · rw [if_pos hn] at h
        simp only [Option.some.injEq, Prod.mk.injEq] at h
        rw [← h.2]
        exact List.Forall₂.cons ⟨rfl, rfl, rfl, rfl⟩
          (List.forall₂_same.2 (fun r _ => ⟨rfl, rfl, rfl, rfl⟩))
      · rw [if_neg hn] at h
        simp only [Option.some.injEq, Prod.mk.injEq] at h
        rw [← h.2]
        exact List.forall₂_same.2 (fun r _ => ⟨rfl, rfl, rfl, rfl⟩)
    · rw [if_neg hq] at h
      cases hr : addPatternLoop p rest with
      | none => rw [hr] at h; simp at h
      | some r =>
        obtain ⟨b₁, l₁⟩ := r
        rw [hr] at h
        simp only [Option.map_some', Option.some.injEq, Prod.mk.injEq] at h
        rw [← h.2]
        exact List.Forall₂.cons ⟨rfl, rfl, rfl, rfl⟩ (addPatternLoop_found p rest b₁ l₁ hr)

theorem forall₂_sameExceptName_map_id {l₁ l₂ : List StoredPattern}
    (h : List.Forall₂ sameExceptName l₁ l₂) :
    l₁.map StoredPattern.id = l₂.map StoredPattern.id := by
  induction h with
  | nil => rfl
  | cons hrq _ ih => simp only [List.map_cons, ih, hrq.1]

/-- Claim C4: for a pattern with a non-empty id, `async_add_pattern`
(1) preserves distinctness of stored ids (it never creates two records
with the same id); (2) when a record with the id already exists, the
stored list keeps its length and every record keeps every field except
possibly its name — no new entry is created; and (3) when the store
already holds `MAX_PATTERNS` (200) records and the id is new, the call
returns `false` and the stored list is unchanged. -/
theorem async_add_pattern_spec (patterns : List StoredPattern) (p : StoredPattern)
    (hid : p.id ≠ "") :
    ((patterns.map StoredPattern.id).Nodup →
      (((async_add_pattern patterns p).2).map StoredPattern.id).Nodup)
    ∧ ((∃ q ∈ patterns, q.id = p.id) →
        List.Forall₂ sameExceptName (async_add_pattern patterns p).2 patterns)
    ∧ (patterns.length ≥ MAX_PATTERNS → (∀ q ∈ patterns, q.id ≠ p.id) →
        async_add_pattern patterns p = (false, patterns)) := by
  rw [async_add_pattern, if_pos hid]
  cases hl : addPatternLoop p patterns with
  | some r =>
    obtain ⟨b, l⟩ := r
    have hf := addPatternLoop_found p patterns b l hl
    refine ⟨?_, fun _ => hf, ?_⟩
    · intro hnodup
      rw [show ((b, l) : Bool × List StoredPattern).2 = l from rfl,
        forall₂_sameExceptName_map_id hf]
      exact hnodup
    · intro _ hall
      exact absurd hl (by rw [(addPatternLoop_eq_none p patterns).2 hall]; simp)
  | none =>
    have hnone := (addPatternLoop_eq_none p patterns).1 hl
    by_cases hge : patterns.length ≥ MAX_PATTERNS
    · rw [if_pos hge]
      exact ⟨fun h => h, fun hex => absurd hex (by
        rintro ⟨q, hq, hqid⟩
        exact hnone q hq hqid), fun _ _ => rfl⟩
    · rw [if_neg hge]
      refine ⟨?_, fun hex => absurd hex (by
        rintro ⟨q, hq, hqid⟩
        exact hnone q hq hqid), fun hge₂ _ => absurd hge₂ hge⟩
      intro hnodup
      show ((patterns ++ [p]).map StoredPattern.id).Nodup
      rw [List.map_append, List.nodup_append]
      refine ⟨hnodup, by simp, ?_⟩
      intro x hx hx₁
      simp only [List.map_cons, List.map_nil, List.mem_singleton] at hx₁
      rcases List.mem_map.1 hx with ⟨q, hq, rfl⟩
      exact hnone q hq (hx₁ ▸ rfl)

/-- Witness for the C4 theorem: a duplicate-id add only renames (no new
entry), and an add into a full store with a fresh id fails without
changing the store. -/
theorem async_add_pattern_spec_witness :
    List.Forall₂ sameExceptName
      (async_add_pattern [StoredPattern.mk "a" "n1" [] "non-spotlight" ""]
        (StoredPattern.mk "a" "n2" [] "non-spotlight" "")).2
      [StoredPattern.mk "a" "n1" [] "non-spotlight" ""]
    ∧ async_add_pattern
        (List.replicate 200 (StoredPattern.mk "a" "n1" [] "non-spotlight" ""))
        (StoredPattern.mk "b" "n2" [] "non-spotlight" "")
      = (false, List.replicate 200 (StoredPattern.mk "a" "n1" [] "non-spotlight" "")) := by
  constructor
  · exact (async_add_pattern_spec
      [StoredPattern.mk "a" "n1" [] "non-spotlight" ""]
      (StoredPattern.mk "a" "n2" [] "non-spotlight" "") (by decide)).2.1
      ⟨StoredPattern.mk "a" "n1" [] "non-spotlight" "", by simp, rfl⟩
  · exact (async_add_pattern_spec
      (List.replicate 200 (StoredPattern.mk "a" "n1" [] "non-spotlight" ""))
      (StoredPattern.mk "b" "n2" [] "non-spotlight" "") (by decide)).2.2
      (by rw [List.length_replicate]; exact le_refl 200)
      (by
        intro q hq
        rw [List.eq_of_mem_replicate hq]
        decide)

/-- Claim C5: when `async_rename_pattern` resolves a target record (by id
or name, at position `j`), then: if some record other than the target
already carries the requested new name (case-sensitive string equality),
the call returns `false` and the stored list is completely unchanged;
otherwise it returns `true` and the store differs only in the resolved
record, whose name becomes `new_name`. -/
theorem async_rename_pattern_spec (patterns : List StoredPattern)
    (pattern_id pattern_name new_name : String) (j : Nat) (target : StoredPattern)
    (hj : async_get_pattern_idx patterns pattern_id pattern_name = some j)
    (ht : patterns[j]? = some target) :
    ((∃ r ∈ patterns, r ≠ target ∧ r.name = new_name) →
        async_rename_pattern patterns pattern_id pattern_name new_name
          = (false, patterns))
    ∧ ((∀ r ∈ patterns, r = target ∨ r.name ≠ new_name) →
        async_rename_pattern patterns pattern_id pattern_name new_name
          = (true, patterns.set j { target with name := new_name })) := by
  constructor
  · rintro ⟨r, hr, hrne, hrname⟩
    simp only [async_rename_pattern, hj, ht]
    rw [if_pos ?_]
    rw [List.any_eq_true]
    exact ⟨r, hr, by simp [hrne, hrname]⟩
  · intro hall
    simp only [async_rename_pattern, hj, ht]
    rw [if_neg ?_]
    rw [List.any_eq_true]
    rintro ⟨r, hr, hb⟩
    simp only [Bool.and_eq_true, decide_eq_true_eq] at hb
    rcases hall r hr with h | h
    · exact hb.1 h
    · exact h hb.2

/-- Witness for the C5 theorem: a rename onto another record's name fails
and leaves the store unchanged; a rename to a fresh name succeeds. -/
theorem async_rename_pattern_spec_witness :
    async_rename_pattern
      [StoredPattern.mk "a" "n1" [] "x" "", StoredPattern.mk "b" "n2" [] "x" ""]
      "a" "" "n2"
      = (false, [StoredPattern.mk "a" "n1" [] "x" "", StoredPattern.mk "b" "n2" [] "x" ""])
    ∧ async_rename_pattern
        [StoredPattern.mk "a" "n1" [] "x" "", StoredPattern.mk "b" "n2" [] "x" ""]
        "a" "" "n3"
      = (true, [StoredPattern.mk "a" "n3" [] "x" "", StoredPattern.mk "b" "n2" [] "x" ""]) := by
  constructor
  · exact (async_rename_pattern_spec
      [StoredPattern.mk "a" "n1" [] "x" "", StoredPattern.mk "b" "n2" [] "x" ""]
      "a" "" "n2" 0 (StoredPattern.mk "a" "n1" [] "x" "") (by decide) (by decide)).1
      ⟨StoredPattern.mk "b" "n2" [] "x" "", by simp, by decide, rfl⟩
  · exact (async_rename_pattern_spec
      [StoredPattern.mk "a" "n1" [] "x" "", StoredPattern.mk "b" "n2" [] "x" ""]
      "a" "" "n3" 0 (StoredPattern.mk "a" "n1" [] "x" "") (by decide) (by decide)).2
      (by
        intro r hr
        rcases List.mem_cons.1 hr with h | h
        · exact Or.inl h
        · simp only [List.mem_singleton] at h
          subst h
          exact Or.inr (by decide))

/-! ### Lemmas about URL building -/

theorem dictLookup_base (up : List (String × String)) (z : String) (k : String)
    (h₁ : k ≠ "zones") (h₂ : k ≠ "num_zones") :
    dictLookup (dictSet (dictSet up "zones" z) "num_zones" "1") k = dictLookup up k := by
  rw [dictLookup_dictSet, if_neg h₂, dictLookup_dictSet, if_neg h₁]

theorem modify_no_indices (oc s : String) (n m : Int)
    (h : parseIndicesLoose (pySplitOn s ',') m = []) :
    modify_spotlight_plan_colors oc s n m = oc := by
  rw [modify_spotlight_plan_colors]
  cases hpt : parseTripletsClamped (pySplitOn oc ',') with
  | nil => rfl
  | cons b tl => simp only [h]

/-- Claim C9: `build_pattern_url` reads the stored record without
modifying it (the model is a pure function of the record; the source
copies `url_params` before assigning) and, in the produced parameter
dictionary, `zones` is the target zone, `num_zones` is `"1"`, and every
other parameter — except `colors` for spotlight-type records — keeps the
value stored in the record's `url_params`; the produced URL is exactly
`http://{ip}/setPattern?` followed by the URL-encoding of that
dictionary. -/
theorem build_pattern_url_spec (pattern : StoredPattern) (zone : Int)
    (ip_address : String) (spotlight_plan_lights : Option String) (max_leds : Int)
    (ps : List (String × String))
    (h : build_pattern_url_params pattern zone spotlight_plan_lights max_leds = some ps) :
    dictLookup ps "zones" = some (pyStr zone)
    ∧ dictLookup ps "num_zones" = some "1"
    ∧ (∀ k, k ≠ "zones" → k ≠ "num_zones" →
        (pattern.plan_type = "spotlight" → k ≠ "colors") →
        dictLookup ps k = dictLookup pattern.url_params k)
    ∧ build_pattern_url pattern zone ip_address spotlight_plan_lights max_leds
        = some ("http://" ++ ip_address ++ "/setPattern?" ++ urlencode ps) := by
  have hurl : build_pattern_url pattern zone ip_address spotlight_plan_lights max_leds
      = some ("http://" ++ ip_address ++ "/setPattern?" ++ urlencode ps) := by
    rw [build_pattern_url, h]
    rfl
  rw [build_pattern_url_params] at h
  by_cases hsp : pattern.plan_type = "spotlight" ∧ spotlight_plan_lights.getD "" ≠ ""
  · rw [if_pos hsp] at h
    cases hnc : pyParseInt (dictGet
        (dictSet (dictSet pattern.url_params "zones" (pyStr zone)) "num_zones" "1")
        "num_colors" "1") with
    | none => rw [hnc] at h; exact absurd h (by simp)
    | some n =>
      simp only [hnc, Option.some.injEq] at h
      subst h
      refine ⟨?_, ?_, ?_, hurl⟩
      · rw [dictLookup_dictSet, if_neg (by decide), dictLookup_dictSet,
          if_neg (by decide), dictLookup_dictSet, if_pos rfl]
      · rw [dictLookup_dictSet, if_neg (by decide), dictLookup_dictSet, if_pos rfl]
      · intro k hk₁ hk₂ hk₃
        rw [dictLookup_dictSet, if_neg (hk₃ hsp.1), dictLookup_base _ _ k hk₁ hk₂]
  · rw [if_neg hsp] at h
    simp only [Option.some.injEq] at h
    subst h
    refine ⟨?_, ?_, ?_, hurl⟩
    · rw [dictLookup_dictSet, if_neg (by decide), dictLookup_dictSet, if_pos rfl]
    · rw [dictLookup_dictSet, if_pos rfl]
    · intro k hk₁ hk₂ _
      exact dictLookup_base _ _ k hk₁ hk₂

/-- Witness for the C9 theorem at a concrete non-spotlight record. -/
theorem build_pattern_url_spec_witness :
    dictLookup [("patternType", "march"), ("colors", "1,2,3"), ("zones", "2"),
        ("num_zones", "1")] "zones" = some (pyStr 2)
    ∧ dictLookup [("patternType", "march"), ("colors", "1,2,3"), ("zones", "2"),
        ("num_zones", "1")] "colors"
      = dictLookup [("patternType", "march"), ("colors", "1,2,3")] "colors" := by
  have h := build_pattern_url_spec
    (StoredPattern.mk "i" "n" [("patternType", "march"), ("colors", "1,2,3")]
      "non-spotlight" "")
    2 "10.0.0.9" none 500
    [("patternType", "march"), ("colors", "1,2,3"), ("zones", "2"), ("num_zones", "1")]
    (by decide)
  exact ⟨h.1, h.2.2.1 "colors" (by decide) (by decide) (fun hs => absurd hs (by decide))⟩

/-- Claim C10: for a spotlight record, when the `spotlight_plan_lights`
argument is `None` or empty no reconstruction happens at all — the
parameter dictionary is just the stored `url_params` with `zones` and
`num_zones` overwritten, so the `colors` parameter keeps the record's
stored `url_params` value; and when the lights string contains no valid
in-range index token, `modify_spotlight_plan_colors` returns the stored
`original_colors` string unchanged, so the `colors` parameter is the
record's stored swatch, not a reconstructed `3 * max_leds` array. -/
theorem build_pattern_url_spotlight_stored_colors (pattern : StoredPattern)
    (zone : Int) (spotlight_plan_lights : Option String) (max_leds : Int)
    (hspot : pattern.plan_type = "spotlight") :
    ((spotlight_plan_lights.getD "" = "") →
        build_pattern_url_params pattern zone spotlight_plan_lights max_leds
          = some (dictSet (dictSet pattern.url_params "zones" (pyStr zone))
              "num_zones" "1")
        ∧ dictLookup (dictSet (dictSet pattern.url_params "zones" (pyStr zone))
              "num_zones" "1") "colors"
          = dictLookup pattern.url_params "colors")
    ∧ (∀ (s : String) (n : Int), spotlight_plan_lights = some s → s ≠ "" →
        litIndices s max_leds = [] →
        pyParseInt (dictGet pattern.url_params "num_colors" "1") = some n →
        build_pattern_url_params pattern zone spotlight_plan_lights max_leds
          = some (dictSet (dictSet (dictSet pattern.url_params "zones" (pyStr zone))
              "num_zones" "1") "colors" pattern.original_colors)
        ∧ dictLookup (dictSet (dictSet (dictSet pattern.url_params "zones" (pyStr zone))
              "num_zones" "1") "colors" pattern.original_colors) "colors"
          = some pattern.original_colors) := by
  constructor
  · intro hempty
    constructor
    · rw [build_pattern_url_params, if_neg (by
        rintro ⟨_, hne⟩
        exact hne hempty)]
    · exact dictLookup_base pattern.url_params (pyStr zone) "colors"
        (by decide) (by decide)
  · intro s n hsome hne hidx hnum
    have hnum₂ : pyParseInt (dictGet
        (dictSet (dictSet pattern.url_params "zones" (pyStr zone)) "num_zones" "1")
        "num_colors" "1") = some n := by
      rw [dictGet, dictLookup_base pattern.url_params (pyStr zone) "num_colors"
        (by decide) (by decide)]
      exact hnum
    constructor
    · rw [build_pattern_url_params, if_pos ⟨hspot, by rw [hsome]; exact hne⟩]
      simp only [hnum₂]
      rw [hsome]
      show some (dictSet _ "colors"
        (modify_spotlight_plan_colors pattern.original_colors s n max_leds)) = _
      rw [modify_no_indices pattern.original_colors s n max_leds (by
        rw [litIndices] at hidx
        exact hidx)]
    · rw [dictLookup_dictSet, if_pos rfl]

/-- Witness for the C10 theorem at a concrete spotlight record, for both
the missing-lights and the no-valid-token cases. -/
theorem build_pattern_url_spotlight_stored_colors_witness :
    build_pattern_url_params
      (StoredPattern.mk "i" "n"
        [("patternType", "spotlight"), ("colors", "9,9,9"), ("num_colors", "1")]
        "spotlight" "9,9,9") 3 none 500
      = some [("patternType", "spotlight"), ("colors", "9,9,9"), ("num_colors", "1"),
          ("zones", pyStr 3), ("num_zones", "1")]
    ∧ dictLookup
        (dictSet (dictSet (dictSet
          [("patternType", "spotlight"), ("colors", "9,9,9"), ("num_colors", "1")]
          "zones" (pyStr 3)) "num_zones" "1") "colors" "9,9,9") "colors"
      = some "9,9,9" := by
  have h := build_pattern_url_spotlight_stored_colors
    (StoredPattern.mk "i" "n"
      [("patternType", "spotlight"), ("colors", "9,9,9"), ("num_colors", "1")]
      "spotlight" "9,9,9") 3 none 500 rfl
  have h₂ := build_pattern_url_spotlight_stored_colors
    (StoredPattern.mk "i" "n"
      [("patternType", "spotlight"), ("colors", "9,9,9"), ("num_colors", "1")]
      "spotlight" "9,9,9") 3 (some "zz") 500 rfl
  exact ⟨(h.1 rfl).1, (h₂.2 "zz" 1 rfl (by decide) (by decide) (by decide)).2⟩

end Oelo
